import Mathlib

/-!
# Verification of the storj segment-repair core

A shallow embedding of the satellite's segment-repair engine and its direct
collaborators, translated from the Go sources:

* `pkg/storage/segments/repairer.go` — `Repair`, `updateMissingPieces`,
  `sliceToSet`, `createBucketID`;
* `pkg/overlay/cache.go` — `Cache.Get`, `Cache.Put`,
  `Cache.KnownUnreliableOrOffline`, `Cache.FindStorageNodes`,
  `Cache.FindStorageNodesWithPreferences`;
* `satellite/metainfo` store construction — `NewStore` dispatching on the
  connection-string scheme.

Go `int`/`int32`/`int64` values are modelled as `Int` (all quantities involved
are small counts and sizes, far from any overflow boundary), Go `float64`
configuration ratios as `ℚ` with truncation toward zero for the `int(...)`
conversion, byte strings as `String`, and node ids as `Nat` with `0` as the
distinguished zero value.  Fallible Go calls return `Except`/`Option`.
Collaborators whose implementation is not part of the sources under
verification (the orders service, the erasure-coding client, the metainfo
key-value service) are modelled as environment-supplied results, with their
contracts taken from the specification where a claim needs them.
-/

namespace Storj

/-! ## Data model -/

/-- Node identifier (Go `storj.NodeID`, an opaque 32-byte value).  Modelled as
a natural number; `0` is the distinguished zero value. -/
abbrev NodeID := Nat

/-- `storj.NodeID.IsZero`: whether the id is the distinguished zero value. -/
def isZeroID (id : NodeID) : Bool := id == 0

/-- Go `pb.Node` as used by the overlay cache and the repairer: only the id
and the address are relevant to the verified operations. -/
structure Node where
  id : NodeID
  address : String
deriving DecidableEq, Repr

/-- Go `pb.RemotePiece`: one erasure share location.  The hash is opaque. -/
structure RemotePiece where
  pieceNum : Int
  nodeId : NodeID
  hash : Nat
deriving DecidableEq, Repr

/-- Go `pb.RedundancyScheme`: `(k, r, s, n)` plus the erasure-share size. -/
structure RedundancyScheme where
  minReq : Int
  repairThreshold : Int
  successThreshold : Int
  total : Int
  erasureShareSize : Int
deriving DecidableEq, Repr

/-- Go `pb.Pointer_DataType`: inline vs remote segments. -/
inductive PointerType
  | inline
  | remote
deriving DecidableEq, Repr

/-- Go `pb.RemoteSegment`: redundancy scheme plus the ordered piece list. -/
structure RemoteSegment where
  redundancy : RedundancyScheme
  remotePieces : List RemotePiece
deriving DecidableEq, Repr

/-- Go `pb.Pointer`: the segment pointer stored in the metainfo store. -/
structure Pointer where
  ptrType : PointerType
  segmentSize : Int
  expirationDate : Int
  remote : Option RemoteSegment
deriving DecidableEq, Repr

/-- The protobuf getter `pointer.GetRemote()` is nil-safe: a missing remote
segment reads as the zero value (zero redundancy scheme, empty piece list). -/
def Pointer.getRemote (p : Pointer) : RemoteSegment :=
  p.remote.getD { redundancy := ⟨0, 0, 0, 0, 0⟩, remotePieces := [] }

/-- Modelled from the spec: `eestream.NewRedundancyStrategyFromProto` (package
`pkg/eestream`, not under the verified sources) validates the §3 redundancy
constraints `k ≤ r < s ≤ n` with `k ≥ 1`; `Repair` fails with an
invalid-redundancy error when they are violated. -/
def validRedundancy (rs : RedundancyScheme) : Prop :=
  1 ≤ rs.minReq ∧ rs.minReq ≤ rs.repairThreshold ∧
    rs.repairThreshold < rs.successThreshold ∧ rs.successThreshold ≤ rs.total

instance (rs : RedundancyScheme) : Decidable (validRedundancy rs) := by
  unfold validRedundancy; infer_instance

/-- Modelled from the spec: `eestream.CalcPieceSize` (not under the verified
sources) computes a per-piece size so that `n · piece_size ≥ segment_size`
(§4.1); the repair engine only forwards it as a capacity requirement. -/
def CalcPieceSize (segmentSize : Int) (rs : RedundancyScheme) : Int :=
  if rs.total ≤ 0 then 0 else (segmentSize + rs.total - 1) / rs.total

/-! ## Overlay cache (`pkg/overlay/cache.go`) -/

/-- Overlay error values (`ErrEmptyNode`, `ErrNodeNotFound`,
`ErrNotEnoughNodes`, the literal `errors.New("invalid request")`).  The
not-enough-nodes error carries the requested and found counts from its
message. -/
inductive OverlayError
  | emptyNode
  | nodeNotFound
  | notEnoughNodes (requested found : Int)
  | invalidRequest
  | dbError
deriving DecidableEq, Repr

/-- Go `overlay.NodeCriteria`. -/
structure NodeCriteria where
  freeBandwidth : Int
  freeDisk : Int
  auditCount : Int
  auditSuccessRatio : ℚ
  uptimeCount : Int
  uptimeSuccessRatio : ℚ
  excluded : List NodeID
  minimumVersion : String
  onlineWindow : Int
deriving DecidableEq, Repr

/-- Go `overlay.FindStorageNodesRequest`. -/
structure FindStorageNodesRequest where
  minimumRequiredNodes : Int
  requestedCount : Int
  freeBandwidth : Int
  freeDisk : Int
  excludedNodes : List NodeID
  minimumVersion : String
deriving DecidableEq, Repr

/-- Go `overlay.NodeStats` (reputation record inside a dossier). -/
structure NodeStats where
  latency90 : Int
  auditSuccessRatio : ℚ
  auditSuccessCount : Int
  auditCount : Int
  uptimeRatio : ℚ
  uptimeSuccessCount : Int
  uptimeCount : Int
  lastContactSuccess : Int
  lastContactFailure : Int
deriving DecidableEq, Repr

/-- Go `overlay.NodeDossier`: the complete per-node record the satellite
tracks (capacity and version are opaque to the verified operations). -/
structure NodeDossier where
  node : Node
  reputation : NodeStats
deriving DecidableEq, Repr

/-- Modelled from the spec: `overlay.NodeSelectionConfig` (satellite
configuration, not under the verified sources); its fields are exactly those
read by `cache.go` (`NewNodePercentage`, the audit/uptime floors,
`MinimumVersion`, `OnlineWindow`). -/
structure NodeSelectionConfig where
  newNodePercentage : ℚ
  auditCount : Int
  auditSuccessRatio : ℚ
  uptimeCount : Int
  uptimeRatio : ℚ
  minimumVersion : String
  onlineWindow : Int
deriving DecidableEq, Repr

/-- The overlay database interface (`overlay.DB`): the back end behind the
cache, supplied by the environment.  Selections and the unreliable-or-offline
query may fail (modelled with a unit error); `get` returns the dossier or
nothing. -/
structure OverlayDB where
  selectStorageNodes : Int → NodeCriteria → Except Unit (List Node)
  selectNewStorageNodes : Int → NodeCriteria → Except Unit (List Node)
  get : NodeID → Option NodeDossier
  knownUnreliableOrOffline : NodeCriteria → List NodeID → Except Unit (List NodeID)

/-- Go `overlay.Cache`: database plus node-selection preferences. -/
structure Cache where
  db : OverlayDB
  preferences : NodeSelectionConfig

/-- `Cache.Get` (cache.go:144-151): the zero node id is rejected with
`ErrEmptyNode` before the database is consulted; otherwise the database
answers with the dossier or node-not-found. -/
def Cache.Get (cache : Cache) (nodeID : NodeID) : Except OverlayError NodeDossier :=
  if isZeroID nodeID then .error .emptyNode
  else
    match cache.db.get nodeID with
    | some dossier => .ok dossier
    | none => .error .nodeNotFound

/-- `Cache.Put` (cache.go:242-255).  The `ok` payload records the argument of
the `UpdateAddress` database write, `none` when no write was performed: a zero
node id returns success without touching the database, a mismatch between the
id and the node value is an invalid request. -/
def Cache.Put (nodeID : NodeID) (value : Node) : Except OverlayError (Option Node) :=
  if isZeroID nodeID then .ok none
  else if nodeID ≠ value.id then .error .invalidRequest
  else .ok (some value)

/-- `Cache.KnownUnreliableOrOffline` (cache.go:229-240): builds the criteria
from the preferences and delegates to the database. -/
def Cache.KnownUnreliableOrOffline (cache : Cache) (nodeIds : List NodeID) :
    Except Unit (List NodeID) :=
  let criteria : NodeCriteria := {
    freeBandwidth := 0
    freeDisk := 0
    auditCount := cache.preferences.auditCount
    auditSuccessRatio := cache.preferences.auditSuccessRatio
    uptimeCount := cache.preferences.uptimeCount
    uptimeSuccessRatio := cache.preferences.uptimeRatio
    excluded := []
    minimumVersion := ""
    onlineWindow := cache.preferences.onlineWindow }
  cache.db.knownUnreliableOrOffline criteria nodeIds

/-- Go `int(x)` conversion of a `float64`: truncation toward zero. -/
def goIntOfFloat (q : ℚ) : Int :=
  if q < 0 then Int.ceil q else Int.floor q

/-- `Cache.FindStorageNodesWithPreferences` (cache.go:164-227), line by line:
the target count is `MinimumRequiredNodes`, replaced by `RequestedCount` when
it is not positive; a `NewNodePercentage` slice of the target is requested
from the new-node pool; selected new nodes join the excluded set; the
remainder is requested from the reputable pool; the concatenation is returned,
with `ErrNotEnoughNodes` when it is shorter than the target. -/
def Cache.FindStorageNodesWithPreferences (cache : Cache)
    (req : FindStorageNodesRequest) (preferences : NodeSelectionConfig) :
    Except OverlayError (List Node) :=
  let reputableNodeCount :=
    if req.minimumRequiredNodes ≤ 0 then req.requestedCount
    else req.minimumRequiredNodes
  let excluded := req.excludedNodes
  let newNodeCount :=
    if 0 < preferences.newNodePercentage then
      goIntOfFloat ((reputableNodeCount : ℚ) * preferences.newNodePercentage)
    else 0
  let newNodesResult :=
    if 0 < newNodeCount then
      cache.db.selectNewStorageNodes newNodeCount {
        freeBandwidth := req.freeBandwidth
        freeDisk := req.freeDisk
        auditCount := preferences.auditCount
        auditSuccessRatio := preferences.auditSuccessRatio
        uptimeCount := 0
        uptimeSuccessRatio := 0
        excluded := excluded
        minimumVersion := preferences.minimumVersion
        onlineWindow := preferences.onlineWindow }
    else .ok []
  match newNodesResult with
  | .error _ => .error .dbError
  | .ok newNodes =>
    let excludedWithNew := excluded ++ newNodes.map (fun node => node.id)
    let criteria : NodeCriteria := {
      freeBandwidth := req.freeBandwidth
      freeDisk := req.freeDisk
      auditCount := preferences.auditCount
      auditSuccessRatio := preferences.auditSuccessRatio
      uptimeCount := preferences.uptimeCount
      uptimeSuccessRatio := preferences.uptimeRatio
      excluded := excludedWithNew
      minimumVersion := preferences.minimumVersion
      onlineWindow := preferences.onlineWindow }
    match cache.db.selectStorageNodes (reputableNodeCount - (newNodes.length : Int)) criteria with
    | .error _ => .error .dbError
    | .ok reputableNodes =>
      let nodes := newNodes ++ reputableNodes
      if (nodes.length : Int) < reputableNodeCount then
        .error (.notEnoughNodes reputableNodeCount (nodes.length : Int))
      else
        .ok nodes

/-- `Cache.FindStorageNodes` (cache.go:159-162): delegates with the cache's
own preferences. -/
def Cache.FindStorageNodes (cache : Cache) (req : FindStorageNodesRequest) :
    Except OverlayError (List Node) :=
  Cache.FindStorageNodesWithPreferences cache req cache.preferences

/-! ## Segment repairer (`pkg/storage/segments/repairer.go`) -/

/-- Go `strings.Split` with a one-character separator, at the character
level: an empty input yields one empty component, and every occurrence of the
separator starts a new component. -/
def splitOnChar (sep : Char) : List Char → List (List Char)
  | [] => [[]]
  | c :: rest =>
      let r := splitOnChar sep rest
      if c = sep then [] :: r
      else (c :: r.headD []) :: r.tail

/-- `storj.SplitPath`.  Modelled from the spec: the path helper (package
`pkg/storj/paths.go`, not under the verified sources) splits the path on
`/` exactly as Go `strings.Split`. -/
def SplitPath (path : String) : List String :=
  (splitOnChar '/' path.toList).map (fun l => String.mk l)

/-- `storj.JoinPaths`.  Modelled from the spec: joins components with `/`
exactly as Go `strings.Join`. -/
def JoinPaths (comps : List String) : String :=
  String.mk (List.intercalate ['/'] (comps.map String.toList))

/-- `createBucketID` (repairer.go:164-170): split the path, require at least
three components, and join components 0 and 2 (project id and bucket name). -/
def createBucketID (path : String) : Option String :=
  let comps := SplitPath path
  if comps.length < 3 then none
  else some (JoinPaths [comps.getD 0 "", comps.getD 2 ""])

/-- `sliceToSet` (repairer.go:155-162): converts the slice to a Go set
(`map[int32]struct{}`); membership in the set is membership in the deduped
list. -/
def sliceToSet (slice : List Int) : List Int := slice.dedup

/-- The loop body of `updateMissingPieces` (repairer.go:182-188): for every
piece, every bad node id equal to the piece's node id appends the piece
number. -/
def missingPiecesLoop (badNodeIDs : List NodeID) (pieces : List RemotePiece) :
    List Int :=
  pieces.foldl
    (fun acc p =>
      badNodeIDs.foldl
        (fun acc2 nodeID => if nodeID = p.nodeId then acc2 ++ [p.pieceNum] else acc2)
        acc)
    []

/-- `Repairer.updateMissingPieces` (repairer.go:172-190): collect the pointer
node ids, ask the cache which are known unreliable or offline, and return the
piece numbers held by those nodes. -/
def updateMissingPieces (cache : Cache) (pieces : List RemotePiece) :
    Except Unit (List Int) :=
  let nodeIDs := pieces.map (fun p => p.nodeId)
  match Cache.KnownUnreliableOrOffline cache nodeIDs with
  | .error e => .error e
  | .ok badNodeIDs => .ok (missingPiecesLoop badNodeIDs pieces)

/-- The classification loop of `Repair` (repairer.go:82-87): one pass over the
pointer pieces accumulates every node id into the excluded list and every
piece whose piece number is not in the lost set into the healthy list. -/
def classifyPieces (lostPiecesSet : List Int) (pieces : List RemotePiece) :
    List NodeID × List RemotePiece :=
  pieces.foldl
    (fun acc piece =>
      (acc.1 ++ [piece.nodeId],
       if piece.pieceNum ∈ lostPiecesSet then acc.2 else acc.2 ++ [piece]))
    ([], [])

/-- Order limit as far as the repairer observes it: the piece index and the
target node of a PUT_REPAIR order (§3 of the spec; the orders service itself
is not under the verified sources). -/
structure OrderLimit where
  pieceIndex : Int
  nodeId : NodeID
deriving DecidableEq, Repr

/-- The upload loop of `Repair` (repairer.go:137-146): walk the per-slot
upload results; each successful slot `i` contributes a piece with
`PieceNum = int32(i)`, the node's id, and `hashes[i]`. -/
def assembleNewPieces (hashes : List Nat) : Nat → List (Option Node) → List RemotePiece
  | _, [] => []
  | i, none :: rest => assembleNewPieces hashes (i + 1) rest
  | i, some node :: rest =>
      { pieceNum := (i : Int), nodeId := node.id, hash := hashes.getD i 0 } ::
        assembleNewPieces hashes (i + 1) rest

/-- The collaborators of one `Repair` call.  The overlay cache is embedded
above; the remaining collaborators are not under the verified sources and are
modelled from the spec as environment-supplied results:

* `metainfoGet` — the metainfo service's pointer lookup (§4.6);
* `getRepairOrders` — `orders.CreateGetRepairOrderLimits` (§4.4), opaque to
  the repairer beyond success or failure;
* `putRepairOrders` — `orders.CreatePutRepairOrderLimits` (§4.4), the
  PUT_REPAIR order limits aligned by piece index;
* `ecGet` — `ec.Get` plus the single `Range(0, size)` read (§4.5), opaque
  beyond success or failure;
* `ecRepair` — `ec.Repair` (§4.5), per-slot successful nodes and hashes;
* `metainfoPutOk` — whether the metainfo service's pointer write succeeds. -/
structure RepairEnv where
  metainfoGet : String → Option Pointer
  cache : Cache
  getRepairOrders : Except Unit Unit
  putRepairOrders : Except Unit (List (Option OrderLimit))
  ecGet : Except Unit Unit
  ecRepair : Except Unit (List (Option Node) × List Nat)
  metainfoPutOk : Bool

/-- How one `Repair` call ended, mirroring the error returns of
repairer.go:45-153 in order. -/
inductive RepairOutcome
  | errNotFound
  | errNotRepairable
  | errInvalidRedundancy
  | errMissingPieces
  | noRepairNeeded
  | errMalformedPath
  | errOrders
  | errOverlay (e : OverlayError)
  | errTransport
  | errStore
  | committed
deriving DecidableEq, Repr

/-- Result of one `Repair` call: the outcome plus the pointer written by the
metainfo `Put`, `none` when no write happened. -/
structure RepairResult where
  outcome : RepairOutcome
  stored : Option Pointer
deriving DecidableEq, Repr

/-- The tail of `Repairer.Repair` (repairer.go:79-153), entered once the
repair-needed gate has decided that a repair is required: classify pieces into
the excluded id list and the healthy list; derive the bucket id; create
GET_REPAIR orders; select replacement nodes through the overlay cache; create
PUT_REPAIR orders; download and reconstruct; upload replacements; append each
successful slot's piece to the healthy list; rewrite the pointer. -/
def repairAfterGate (env : RepairEnv) (path : String) (pointer : Pointer)
    (remote : RemoteSegment) (missingPieces : List Int) : RepairResult :=
  let redundancy := remote.redundancy
  let pieceSize := CalcPieceSize pointer.segmentSize redundancy
  let pieces := remote.remotePieces
  let lostPiecesSet := sliceToSet missingPieces
  let classified := classifyPieces lostPiecesSet pieces
  let excludeNodeIDs := classified.1
  let healthyPieces := classified.2
  match createBucketID path with
  | none => ⟨.errMalformedPath, none⟩
  | some _bucketID =>
    match env.getRepairOrders with
    | .error _ => ⟨.errOrders, none⟩
    | .ok _ =>
      let request : FindStorageNodesRequest := {
        minimumRequiredNodes := 0
        requestedCount := redundancy.total - (healthyPieces.length : Int)
        freeBandwidth := pieceSize
        freeDisk := pieceSize
        excludedNodes := excludeNodeIDs
        minimumVersion := "" }
      match Cache.FindStorageNodes env.cache request with
      | .error e => ⟨.errOverlay e, none⟩
      | .ok _newNodes =>
        match env.putRepairOrders with
        | .error _ => ⟨.errOrders, none⟩
        | .ok _putLimits =>
          match env.ecGet with
          | .error _ => ⟨.errTransport, none⟩
          | .ok _ =>
            match env.ecRepair with
            | .error _ => ⟨.errTransport, none⟩
            | .ok (successfulNodes, hashes) =>
              let newPieces := assembleNewPieces hashes 0 successfulNodes
              let updatedPieces := healthyPieces ++ newPieces
              let newPointer :=
                { pointer with
                  remote := some { remote with remotePieces := updatedPieces } }
              if env.metainfoPutOk then ⟨.committed, some newPointer⟩
              else ⟨.errStore, none⟩

/-- `Repairer.Repair` (repairer.go:45-153): load the pointer; reject
non-remote pointers; parse the redundancy; compute the missing pieces; return
a non-error no-op when the segment is healthy enough; otherwise continue with
`repairAfterGate`. -/
def Repair (env : RepairEnv) (path : String) : RepairResult :=
  match env.metainfoGet path with
  | none => ⟨.errNotFound, none⟩
  | some pointer =>
    if pointer.ptrType ≠ PointerType.remote then ⟨.errNotRepairable, none⟩
    else
      let remote := pointer.getRemote
      if ¬ validRedundancy remote.redundancy then ⟨.errInvalidRedundancy, none⟩
      else
        let pieces := remote.remotePieces
        match updateMissingPieces env.cache pieces with
        | .error _ => ⟨.errMissingPieces, none⟩
        | .ok missingPieces =>
          let numHealthy : Int := (pieces.length : Int) - (missingPieces.length : Int)
          if numHealthy ≥ remote.redundancy.minReq ∧
              numHealthy > remote.redundancy.repairThreshold then
            ⟨.noRepairNeeded, none⟩
          else repairAfterGate env path pointer remote missingPieces

/-! ## Pointer-store construction (`satellite/metainfo`, `NewStore`) -/

/-- Split a character list at the first occurrence of the `://` scheme
separator: everything before it and everything after it. -/
def splitScheme : List Char → Option (List Char × List Char)
  | [] => none
  | ':' :: '/' :: '/' :: rest => some ([], rest)
  | c :: rest => (splitScheme rest).map (fun p => (c :: p.1, p.2))

/-- `dbutil.SplitConnstr`.  Modelled from the spec: the connection string
carries a scheme before `://` (§6); the helper (package `internal/dbutil`,
not under the verified sources) splits it at the first `://` into driver and
source, failing when no scheme separator is present. -/
def SplitConnstr (s : String) : Except String (String × String) :=
  match splitScheme s.toList with
  | none => .error s
  | some (driver, source) => .ok (String.mk driver, String.mk source)

/-- The two pointer-store back ends `NewStore` can open. -/
inductive KeyValueStore
  | boltDB (source : String) (bucket : String)
  | postgresKV (source : String)
deriving DecidableEq, Repr

/-- Store-construction errors: an unparsable connection string, or an
unsupported scheme. -/
inductive StoreError
  | parseError (connstr : String)
  | unsupportedScheme (driver : String)
deriving DecidableEq, Repr

/-- `BoltPointerBucket`: the BoltDB bucket used for pointer entries. -/
def BoltPointerBucket : String := "pointers"

/-- `metainfo.NewStore`: split the connection string and dispatch on the
driver — `bolt` opens BoltDB, `postgresql` or `postgres` opens the relational
back end, anything else is an unsupported scheme. -/
def NewStore (dbURLString : String) : Except StoreError KeyValueStore :=
  match SplitConnstr dbURLString with
  | .error s => .error (.parseError s)
  | .ok (driver, source) =>
    if driver = "bolt" then .ok (.boltDB source BoltPointerBucket)
    else if driver = "postgresql" ∨ driver = "postgres" then .ok (.postgresKV source)
    else .error (.unsupportedScheme driver)

/-! ## Theorems -/

/-- C5: bucket-id derivation splits the path on `/`: it fails exactly when the
path has fewer than three components, and otherwise returns the stable byte
string joining components 0 and 2 (project id and bucket name), regardless of
any trailing components. -/
theorem C5_createBucketID_spec (path : String) :
    (createBucketID path = none ↔ (SplitPath path).length < 3) ∧
    (3 ≤ (SplitPath path).length →
      createBucketID path =
        some (JoinPaths [(SplitPath path).getD 0 "", (SplitPath path).getD 2 ""])) := by
  unfold createBucketID
  by_cases h : (SplitPath path).length < 3
  · refine ⟨by simp [h], fun h3 => absurd h3 (by omega)⟩
  · refine ⟨by simp [h], fun _ => by simp [h]⟩

/-- C5 witness: the four-component path `alpha/s0/beta/gamma` yields the
project/bucket pair `alpha/beta`. -/
theorem C5_createBucketID_spec_witness :
    3 ≤ (SplitPath "alpha/s0/beta/gamma").length ∧
    createBucketID "alpha/s0/beta/gamma" =
      some (JoinPaths [(SplitPath "alpha/s0/beta/gamma").getD 0 "",
        (SplitPath "alpha/s0/beta/gamma").getD 2 ""]) :=
  ⟨by decide, (C5_createBucketID_spec "alpha/s0/beta/gamma").2 (by decide)⟩

/-- C9: pointer-store construction parses the scheme and dispatches: a `bolt`
scheme opens the BoltDB back end, a `postgres` scheme (and the alias
`postgresql`) opens the relational back end, and any other scheme fails with
the unsupported-scheme error. -/
theorem C9_NewStore_dispatch (s driver source : String)
    (hsplit : SplitConnstr s = .ok (driver, source)) :
    (driver = "bolt" → NewStore s = .ok (.boltDB source BoltPointerBucket)) ∧
    (driver = "postgres" ∨ driver = "postgresql" →
      NewStore s = .ok (.postgresKV source)) ∧
    (driver ≠ "bolt" → driver ≠ "postgres" → driver ≠ "postgresql" →
      NewStore s = .error (.unsupportedScheme driver)) := by
  unfold NewStore
  rw [hsplit]
  dsimp only
  refine ⟨fun h => by simp [h], fun h => ?_, fun h1 h2 h3 => ?_⟩
  · rcases h with h | h <;> subst h <;> simp
  · rw [if_neg h1, if_neg (fun hc => hc.elim h3 h2)]

/-- C9 witness: `bolt://p.db` opens BoltDB on `p.db` with the pointers
bucket, and `mysql://host` is rejected as an unsupported scheme. -/
theorem C9_NewStore_dispatch_witness :
    NewStore "bolt://p.db" = .ok (.boltDB "p.db" BoltPointerBucket) ∧
    NewStore "mysql://host" = .error (.unsupportedScheme "mysql") :=
  ⟨(C9_NewStore_dispatch "bolt://p.db" "bolt" "p.db" rfl).1 rfl,
   (C9_NewStore_dispatch "mysql://host" "mysql" "host" rfl).2.2
     (by decide) (by decide) (by decide)⟩

/-- C8: the node-health cache's `Get` rejects the distinguished zero node id
with the empty-node error without consulting the database (the result does
not depend on the database at all), and for a non-zero id returns the
database's dossier, or node-not-found when the database has none. -/
theorem C8_cache_get (db db2 : OverlayDB) (prefs prefs2 : NodeSelectionConfig)
    (nodeID : NodeID) :
    (Cache.Get ⟨db, prefs⟩ 0 = .error .emptyNode ∧
      Cache.Get ⟨db, prefs⟩ 0 = Cache.Get ⟨db2, prefs2⟩ 0) ∧
    (nodeID ≠ 0 →
      Cache.Get ⟨db, prefs⟩ nodeID =
        match db.get nodeID with
        | some dossier => .ok dossier
        | none => .error .nodeNotFound) := by
  unfold Cache.Get isZeroID
  refine ⟨⟨by simp, by simp⟩, fun h => ?_⟩
  simp [h]

/-- C8 witness: at node id 7 with a database holding no dossier for it, `Get`
answers node-not-found; at the zero id it answers empty-node. -/
theorem C8_cache_get_witness :
    Cache.Get ⟨⟨fun _ _ => .ok [], fun _ _ => .ok [], fun _ => none,
        fun _ _ => .ok []⟩, ⟨0, 0, 0, 0, 0, "", 0⟩⟩ 7 = .error .nodeNotFound ∧
    Cache.Get ⟨⟨fun _ _ => .ok [], fun _ _ => .ok [], fun _ => none,
        fun _ _ => .ok []⟩, ⟨0, 0, 0, 0, 0, "", 0⟩⟩ 0 = .error .emptyNode := by
  refine ⟨?_, ?_⟩
  · exact ((C8_cache_get ⟨fun _ _ => .ok [], fun _ _ => .ok [], fun _ => none,
      fun _ _ => .ok []⟩ ⟨fun _ _ => .ok [], fun _ _ => .ok [], fun _ => none,
      fun _ _ => .ok []⟩ ⟨0, 0, 0, 0, 0, "", 0⟩ ⟨0, 0, 0, 0, 0, "", 0⟩ 7).2
      (by decide)).trans rfl
  · exact ((C8_cache_get ⟨fun _ _ => .ok [], fun _ _ => .ok [], fun _ => none,
      fun _ _ => .ok []⟩ ⟨fun _ _ => .ok [], fun _ _ => .ok [], fun _ => none,
      fun _ _ => .ok []⟩ ⟨0, 0, 0, 0, 0, "", 0⟩ ⟨0, 0, 0, 0, 0, "", 0⟩ 7).1).1

/-- C10: `Put` with the zero node id succeeds without performing any database
update (the `ok none` payload records that no `UpdateAddress` write was
issued), while a non-zero id differing from the id carried by the node value
fails with the invalid-request error and performs no update. -/
theorem C10_cache_put (nodeID : NodeID) (value : Node) :
    Cache.Put 0 value = .ok none ∧
    (nodeID ≠ 0 → nodeID ≠ value.id → Cache.Put nodeID value = .error .invalidRequest) := by
  unfold Cache.Put isZeroID
  refine ⟨by simp, fun h hne => ?_⟩
  simp [h, hne]

/-- C10 witness: putting node value with id 5 under id 4 is rejected as an
invalid request; putting it under the zero id is a no-op success. -/
theorem C10_cache_put_witness :
    Cache.Put 0 ⟨5, "addr"⟩ = .ok none ∧
    Cache.Put 4 ⟨5, "addr"⟩ = .error .invalidRequest :=
  ⟨(C10_cache_put 4 ⟨5, "addr"⟩).1,
   (C10_cache_put 4 ⟨5, "addr"⟩).2 (by decide) (by decide)⟩

/-- C7: repairing a path whose stored pointer is not of the remote kind fails
with the not-repairable error at once: the result holds for every choice of
the remaining collaborators (so no classification, ordering, transfer, or
pointer rewrite can have contributed), and no pointer is written. -/
theorem C7_repair_inline (env : RepairEnv) (path : String) (pointer : Pointer)
    (hget : env.metainfoGet path = some pointer)
    (hinline : pointer.ptrType = PointerType.inline) :
    Repair env path = ⟨.errNotRepairable, none⟩ := by
  unfold Repair
  rw [hget]
  have hne : pointer.ptrType ≠ PointerType.remote := by
    rw [hinline]; exact fun h => PointerType.noConfusion h
  simp [hne]

/-- A concrete environment holding a single inline pointer, used to witness
the inline-segment rejection. -/
def inlineEnv : RepairEnv :=
  { metainfoGet := fun p =>
      if p = "proj/l/bucket/obj" then
        some ⟨PointerType.inline, 512, 0, none⟩
      else none
    cache := ⟨⟨fun _ _ => .ok [], fun _ _ => .ok [], fun _ => none,
      fun _ _ => .ok []⟩, ⟨0, 0, 0, 0, 0, "", 0⟩⟩
    getRepairOrders := .ok ()
    putRepairOrders := .ok []
    ecGet := .ok ()
    ecRepair := .ok ([], [])
    metainfoPutOk := true }

/-- C7 witness: repairing the inline pointer at `proj/l/bucket/obj` in the
concrete environment fails with the not-repairable error and writes nothing. -/
theorem C7_repair_inline_witness :
    Repair inlineEnv "proj/l/bucket/obj" = ⟨.errNotRepairable, none⟩ :=
  C7_repair_inline inlineEnv "proj/l/bucket/obj" ⟨PointerType.inline, 512, 0, none⟩
    rfl rfl

/-- An overlay database whose reputable pool holds five nodes (ids 301-305)
and whose new-node pool is empty, used for concrete node-selection runs. -/
def fivePoolDB : OverlayDB :=
  { selectStorageNodes := fun count _ =>
      .ok (((List.range 5).map (fun (i : Nat) => ⟨301 + i, "addr"⟩)).take count.toNat)
    selectNewStorageNodes := fun _ _ => .ok []
    get := fun _ => none
    knownUnreliableOrOffline := fun _ _ => .ok [] }

/-- Preferences with a zero new-node percentage and zeroed reputation floors,
used for concrete node-selection runs. -/
def plainPrefs : NodeSelectionConfig := ⟨0, 0, 0, 0, 0, "", 0⟩

/-- C4 counterexample: with `minimum_required = 2` and `requested_count = 5`
the selector targets 2 nodes, not `max(2, 5) = 5`: it succeeds with the two
nodes the reputable pool returns although their number is below
`max(minimum_required, requested_count)`, where the claim demands a
NOT_ENOUGH_NODES failure. -/
theorem C4_counterexample :
    Cache.FindStorageNodesWithPreferences ⟨fivePoolDB, plainPrefs⟩
        ⟨2, 5, 0, 0, [], ""⟩ plainPrefs = .ok [⟨301, "addr"⟩, ⟨302, "addr"⟩] ∧
    ((2 : Int) <
      max (⟨2, 5, 0, 0, [], ""⟩ : FindStorageNodesRequest).minimumRequiredNodes
        (⟨2, 5, 0, 0, [], ""⟩ : FindStorageNodesRequest).requestedCount) := by
  exact ⟨rfl, by decide⟩

/-- C4 amended: node selection targets `minimum_required` when it is
positive and `requested_count` otherwise; assuming the underlying database
selections succeed, a success returns at least `target` nodes, and any
failure is a NOT_ENOUGH_NODES error whose found count is below `target`. -/
theorem C4_find_nodes_amended (cache : Cache) (req : FindStorageNodesRequest)
    (prefs : NodeSelectionConfig) (target : Int)
    (htarget : target =
      if req.minimumRequiredNodes ≤ 0 then req.requestedCount
      else req.minimumRequiredNodes)
    (hdbn : ∀ n c, ∃ l, cache.db.selectNewStorageNodes n c = .ok l)
    (hdbr : ∀ n c, ∃ l, cache.db.selectStorageNodes n c = .ok l) :
    (∀ ns, Cache.FindStorageNodesWithPreferences cache req prefs = .ok ns →
      target ≤ (ns.length : Int)) ∧
    (∀ e, Cache.FindStorageNodesWithPreferences cache req prefs = .error e →
      ∃ found, e = .notEnoughNodes target found ∧ found < target) := by
  unfold Cache.FindStorageNodesWithPreferences
  dsimp only
  rw [← htarget]
  by_cases hnn : 0 <
      (if 0 < prefs.newNodePercentage then
        goIntOfFloat ((target : ℚ) * prefs.newNodePercentage) else 0)
  · rw [if_pos hnn]
    obtain ⟨newNodes, hnew⟩ := hdbn _ _
    rw [hnew]
    dsimp only
    obtain ⟨repNodes, hrep⟩ := hdbr _ _
    rw [hrep]
    dsimp only
    by_cases hlen : (((newNodes ++ repNodes).length : Nat) : Int) < target
    · rw [if_pos hlen]
      refine ⟨fun ns h => Except.noConfusion h, fun e h => ?_⟩
      injection h with he
      exact ⟨_, he.symm, hlen⟩
    · rw [if_neg hlen]
      refine ⟨fun ns h => ?_, fun e h => Except.noConfusion h⟩
      injection h with he
      subst he
      omega
  · rw [if_neg hnn]
    dsimp only
    obtain ⟨repNodes, hrep⟩ := hdbr _ _
    rw [hrep]
    dsimp only
    by_cases hlen : ((([] ++ repNodes : List Node).length : Nat) : Int) < target
    · rw [if_pos hlen]
      refine ⟨fun ns h => Except.noConfusion h, fun e h => ?_⟩
      injection h with he
      exact ⟨_, he.symm, hlen⟩
    · rw [if_neg hlen]
      refine ⟨fun ns h => ?_, fun e h => Except.noConfusion h⟩
      injection h with he
      subst he
      omega

/-- The inner loop of `updateMissingPieces` appends one copy of the piece
number for every occurrence of the piece's node id in the bad-node list. -/
lemma innerLoop_eq_replicate (bad : List NodeID) (x : NodeID) (y : Int)
    (acc : List Int) :
    bad.foldl (fun a nid => if nid = x then a ++ [y] else a) acc
      = acc ++ List.replicate (bad.count x) y := by
  induction bad generalizing acc with
  | nil => simp
  | cons b bs ih =>
    by_cases hb : b = x
    · subst hb
      rw [List.foldl_cons, if_pos rfl, ih, List.count_cons_self,
        List.replicate_succ]
      simp
    · rw [List.foldl_cons, if_neg hb, ih,
        List.count_cons_of_ne (fun h => hb h.symm)]

/-- With a duplicate-free bad-node list, the inner loop appends the piece
number exactly when the piece's node id is bad. -/
lemma innerLoop_eq_ite (bad : List NodeID) (hnd : bad.Nodup) (x : NodeID)
    (y : Int) (acc : List Int) :
    bad.foldl (fun a nid => if nid = x then a ++ [y] else a) acc
      = acc ++ (if x ∈ bad then [y] else []) := by
  rw [innerLoop_eq_replicate]
  by_cases hx : x ∈ bad
  · rw [if_pos hx, List.count_eq_one_of_mem hnd hx]
    rfl
  · rw [if_neg hx, List.count_eq_zero_of_not_mem hx]
    rfl

/-- The missing-pieces double loop, from any accumulator, appends the piece
numbers of exactly the pieces held by a bad node, in pointer order. -/
lemma missingLoop_append (bad : List NodeID) (hnd : bad.Nodup)
    (pieces : List RemotePiece) (acc : List Int) :
    pieces.foldl
      (fun acc2 p =>
        bad.foldl (fun a nid => if nid = p.nodeId then a ++ [p.pieceNum] else a) acc2)
      acc
      = acc ++ (pieces.filter (fun p => p.nodeId ∈ bad)).map (fun p => p.pieceNum) := by
  induction pieces generalizing acc with
  | nil => simp
  | cons p ps ih =>
    rw [List.foldl_cons, innerLoop_eq_ite bad hnd, ih]
    by_cases hp : p.nodeId ∈ bad
    · simp [hp, List.filter_cons]
    · simp [hp, List.filter_cons]

/-- `missingPiecesLoop` computes the piece numbers of exactly the pieces held
by a bad node, in pointer order, when the bad-node list has no duplicates. -/
lemma missingPiecesLoop_eq (bad : List NodeID) (pieces : List RemotePiece)
    (hnd : bad.Nodup) :
    missingPiecesLoop bad pieces
      = (pieces.filter (fun p => p.nodeId ∈ bad)).map (fun p => p.pieceNum) := by
  unfold missingPiecesLoop
  rw [missingLoop_append bad hnd pieces []]
  rfl

/-- The classification loop, from any accumulator pair, appends every node id
to the excluded list and every piece whose number is not lost to the healthy
list, in pointer order. -/
lemma classifyLoop_append (lost : List Int) (pieces : List RemotePiece)
    (a1 : List NodeID) (a2 : List RemotePiece) :
    pieces.foldl
      (fun acc piece =>
        (acc.1 ++ [piece.nodeId],
         if piece.pieceNum ∈ lost then acc.2 else acc.2 ++ [piece]))
      (a1, a2)
      = (a1 ++ pieces.map (fun p => p.nodeId),
         a2 ++ pieces.filter (fun p => p.pieceNum ∉ lost)) := by
  induction pieces generalizing a1 a2 with
  | nil => simp
  | cons p ps ih =>
    rw [List.foldl_cons]
    by_cases hp : p.pieceNum ∈ lost
    · rw [if_pos hp]
      rw [ih]
      simp [hp, List.filter_cons]
    · rw [if_neg hp]
      rw [ih]
      simp [hp, List.filter_cons]

/-- `classifyPieces` returns the node ids of all pieces and the pieces whose
number is not lost, both in pointer order. -/
lemma classifyPieces_eq (lost : List Int) (pieces : List RemotePiece) :
    classifyPieces lost pieces
      = (pieces.map (fun p => p.nodeId),
         pieces.filter (fun p => p.pieceNum ∉ lost)) := by
  unfold classifyPieces
  rw [classifyLoop_append lost pieces [] []]
  rfl

/-- C6: the classification step computes the missing piece numbers as exactly
the piece numbers of the pointer pieces whose node id is in the list returned
by `KnownUnreliableOrOffline`, and the healthy pieces as exactly the pointer
pieces whose piece number is not missing, both preserving pointer order. -/
theorem C6_classification (cache : Cache) (pieces : List RemotePiece)
    (bad : List NodeID)
    (hbad : Cache.KnownUnreliableOrOffline cache (pieces.map (fun p => p.nodeId))
      = .ok bad)
    (hnd : bad.Nodup) :
    updateMissingPieces cache pieces
      = .ok ((pieces.filter (fun p => p.nodeId ∈ bad)).map (fun p => p.pieceNum)) ∧
    (∀ missing, updateMissingPieces cache pieces = .ok missing →
      classifyPieces (sliceToSet missing) pieces
        = (pieces.map (fun p => p.nodeId),
           pieces.filter (fun p => p.pieceNum ∉ missing))) := by
  have h1 : updateMissingPieces cache pieces = .ok (missingPiecesLoop bad pieces) := by
    unfold updateMissingPieces
    dsimp only
    rw [hbad]
  refine ⟨by rw [h1, missingPiecesLoop_eq bad pieces hnd], fun missing hm => ?_⟩
  rw [h1] at hm
  injection hm with hm
  subst hm
  rw [classifyPieces_eq]
  have : pieces.filter (fun p => p.pieceNum ∉ sliceToSet (missingPiecesLoop bad pieces))
      = pieces.filter (fun p => p.pieceNum ∉ missingPiecesLoop bad pieces) := by
    apply List.filter_congr
    intro p _
    simp [sliceToSet, List.mem_dedup]
  rw [this]

/-- A cache whose database reports nodes 106 and 107 as unreliable or
offline, used to witness the classification step. -/
def badPairCache : Cache :=
  ⟨⟨fun _ _ => .ok [], fun _ _ => .ok [], fun _ => none,
    fun _ _ => .ok [106, 107]⟩, plainPrefs⟩

/-- Three concrete pointer pieces, the last two held by the bad nodes. -/
def threePieces : List RemotePiece := [⟨0, 101, 40⟩, ⟨5, 106, 41⟩, ⟨6, 107, 42⟩]

/-- C6 witness: on the three concrete pieces, the missing piece numbers are
5 and 6 and the healthy list keeps exactly piece 0, in order. -/
theorem C6_classification_witness :
    updateMissingPieces badPairCache threePieces
      = .ok ((threePieces.filter (fun p => p.nodeId ∈ [106, 107])).map
          (fun p => p.pieceNum)) ∧
    classifyPieces (sliceToSet [5, 6]) threePieces
      = (threePieces.map (fun p => p.nodeId),
         threePieces.filter (fun p => p.pieceNum ∉ ([5, 6] : List Int))) :=
  ⟨(C6_classification badPairCache threePieces [106, 107] rfl (by decide)).1,
   (C6_classification badPairCache threePieces [106, 107] rfl (by decide)).2
     [5, 6] rfl⟩

/-- For a duplicate-free bad-node list, the missing count equals the number
of pieces held by a bad node, so the code's healthy count (piece count minus
missing count) is the number of pieces held by a good node. -/
lemma numHealthy_eq_goodFilter_length (bad : List NodeID) (pieces : List RemotePiece)
    (hnd : bad.Nodup) :
    (pieces.length : Int) - ((missingPiecesLoop bad pieces).length : Int)
      = ((pieces.filter (fun p => p.nodeId ∉ bad)).length : Int) := by
  rw [missingPiecesLoop_eq bad pieces hnd, List.length_map]
  have h := List.length_eq_length_filter_add (l := pieces)
    (fun p => decide (p.nodeId ∈ bad))
  have hco : pieces.filter (fun p => !(decide (p.nodeId ∈ bad)))
      = pieces.filter (fun p => p.nodeId ∉ bad) := by
    apply List.filter_congr
    intro p _
    simp
  rw [hco] at h
  omega

/-- With duplicate-free piece numbers, a piece's number is missing exactly
when its node is bad, so the healthy filter over piece numbers coincides with
the good-node filter. -/
lemma healthyFilter_eq_goodFilter (bad : List NodeID) (pieces : List RemotePiece)
    (hnd : bad.Nodup) (hpn : (pieces.map (fun p => p.pieceNum)).Nodup) :
    pieces.filter (fun p => p.pieceNum ∉ missingPiecesLoop bad pieces)
      = pieces.filter (fun p => p.nodeId ∉ bad) := by
  apply List.filter_congr
  intro p hp
  have hiff : p.pieceNum ∈ missingPiecesLoop bad pieces ↔ p.nodeId ∈ bad := by
    rw [missingPiecesLoop_eq bad pieces hnd]
    constructor
    · intro hm
      rcases List.mem_map.mp hm with ⟨q, hq, hqe⟩
      have hq2 : q ∈ pieces := List.mem_of_mem_filter hq
      have hqp : q = p := List.inj_on_of_nodup_map hpn hq2 hp hqe
      have hqb := List.of_mem_filter hq
      rw [← hqp]
      simpa using hqb
    · intro hb
      exact List.mem_map.mpr ⟨p, List.mem_filter.mpr ⟨hp, by simpa⟩, rfl⟩
  simp [hiff]

/-- The post-gate repair pipeline never reports the no-repair-needed
outcome: once the gate has decided to repair, every exit is an error or a
commit. -/
lemma repairAfterGate_outcome_ne (env : RepairEnv) (path : String)
    (pointer : Pointer) (remote : RemoteSegment) (missingPieces : List Int) :
    (repairAfterGate env path pointer remote missingPieces).outcome
      ≠ RepairOutcome.noRepairNeeded := by
  unfold repairAfterGate
  dsimp only
  split
  · intro h; cases h
  split
  · intro h; cases h
  split
  · intro h; cases h
  split
  · intro h; cases h
  split
  · intro h; cases h
  split
  · intro h; cases h
  split
  · intro h; cases h
  · intro h; cases h

/-- C3: once the pointer is loaded, remote, and validly redundant and the
missing pieces are classified, letting `h` be the healthy piece count (the
pieces on good nodes), Repair returns the non-error NO_REPAIR_NEEDED outcome
and leaves the pointer store untouched exactly when `h ≥ k` and `h` exceeds
the repair threshold; otherwise it proceeds with the repair pipeline and in
particular does not report NO_REPAIR_NEEDED. -/
theorem C3_repair_gate (env : RepairEnv) (path : String) (pointer : Pointer)
    (bad : List NodeID)
    (hget : env.metainfoGet path = some pointer)
    (hremote : pointer.ptrType = PointerType.remote)
    (hvalid : validRedundancy pointer.getRemote.redundancy)
    (hbad : Cache.KnownUnreliableOrOffline env.cache
      (pointer.getRemote.remotePieces.map (fun p => p.nodeId)) = .ok bad)
    (hnd : bad.Nodup)
    (hpn : (pointer.getRemote.remotePieces.map (fun p => p.pieceNum)).Nodup)
    (h : Int)
    (hh : h = (((classifyPieces
      (sliceToSet (missingPiecesLoop bad pointer.getRemote.remotePieces))
      pointer.getRemote.remotePieces).2).length : Int)) :
    (h ≥ pointer.getRemote.redundancy.minReq ∧
        h > pointer.getRemote.redundancy.repairThreshold →
      Repair env path = ⟨.noRepairNeeded, none⟩) ∧
    (¬ (h ≥ pointer.getRemote.redundancy.minReq ∧
        h > pointer.getRemote.redundancy.repairThreshold) →
      Repair env path
          = repairAfterGate env path pointer pointer.getRemote
              (missingPiecesLoop bad pointer.getRemote.remotePieces) ∧
        (Repair env path).outcome ≠ RepairOutcome.noRepairNeeded) := by
  have hrepair : Repair env path =
      if ((pointer.getRemote.remotePieces.length : Int) -
            ((missingPiecesLoop bad pointer.getRemote.remotePieces).length : Int))
            ≥ pointer.getRemote.redundancy.minReq ∧
          ((pointer.getRemote.remotePieces.length : Int) -
            ((missingPiecesLoop bad pointer.getRemote.remotePieces).length : Int))
            > pointer.getRemote.redundancy.repairThreshold then
        ⟨.noRepairNeeded, none⟩
      else
        repairAfterGate env path pointer pointer.getRemote
          (missingPiecesLoop bad pointer.getRemote.remotePieces) := by
    unfold Repair
    rw [hget]
    dsimp only
    rw [if_neg (by simp [hremote])]
    rw [if_neg (not_not_intro hvalid)]
    have hum : updateMissingPieces env.cache pointer.getRemote.remotePieces
        = .ok (missingPiecesLoop bad pointer.getRemote.remotePieces) := by
      unfold updateMissingPieces
      dsimp only
      rw [hbad]
    rw [hum]
  have hclassify : (classifyPieces
      (sliceToSet (missingPiecesLoop bad pointer.getRemote.remotePieces))
      pointer.getRemote.remotePieces).2
      = pointer.getRemote.remotePieces.filter (fun p => p.nodeId ∉ bad) := by
    rw [classifyPieces_eq]
    dsimp only
    have hd : pointer.getRemote.remotePieces.filter
        (fun p => p.pieceNum ∉ sliceToSet (missingPiecesLoop bad pointer.getRemote.remotePieces))
        = pointer.getRemote.remotePieces.filter
          (fun p => p.pieceNum ∉ missingPiecesLoop bad pointer.getRemote.remotePieces) := by
      apply List.filter_congr
      intro p _
      simp [sliceToSet, List.mem_dedup]
    rw [hd]
    exact healthyFilter_eq_goodFilter bad pointer.getRemote.remotePieces hnd hpn
  have hnum : (pointer.getRemote.remotePieces.length : Int) -
      ((missingPiecesLoop bad pointer.getRemote.remotePieces).length : Int) = h := by
    rw [hh, hclassify]
    exact numHealthy_eq_goodFilter_length bad pointer.getRemote.remotePieces hnd
  rw [hnum] at hrepair
  constructor
  · intro hgate
    rw [hrepair, if_pos hgate]
  · intro hgate
    rw [hrepair, if_neg hgate]
    exact ⟨rfl, repairAfterGate_outcome_ne env path pointer pointer.getRemote
      (missingPiecesLoop bad pointer.getRemote.remotePieces)⟩

/-- Scenario S4 of the spec: redundancy `(k = 4, r = 6, s = 8, n = 10)`. -/
def s4Scheme : RedundancyScheme := ⟨4, 6, 8, 10, 256⟩

/-- Scenario S4: ten pointer pieces with piece numbers 0-9 on nodes
101-110. -/
def s4Pieces : List RemotePiece :=
  [⟨0, 101, 900⟩, ⟨1, 102, 901⟩, ⟨2, 103, 902⟩, ⟨3, 104, 903⟩, ⟨4, 105, 904⟩,
   ⟨5, 106, 905⟩, ⟨6, 107, 906⟩, ⟨7, 108, 907⟩, ⟨8, 109, 908⟩, ⟨9, 110, 909⟩]

/-- Scenario S4: the remote pointer under repair. -/
def s4Pointer : Pointer := ⟨.remote, 4096, 0, some ⟨s4Scheme, s4Pieces⟩⟩

/-- Scenario S4: an overlay database that classifies nodes 106-110 (holding
pieces 5-9) as unreliable or offline, and offers five replacement nodes
201-205 from the reputable pool. -/
def s4DB : OverlayDB :=
  { selectStorageNodes := fun count _ =>
      .ok (([⟨201, "addr"⟩, ⟨202, "addr"⟩, ⟨203, "addr"⟩, ⟨204, "addr"⟩,
        ⟨205, "addr"⟩] : List Node).take count.toNat)
    selectNewStorageNodes := fun _ _ => .ok []
    get := fun _ => none
    knownUnreliableOrOffline := fun _ _ => .ok [106, 107, 108, 109, 110] }

/-- Scenario S4: PUT_REPAIR order limits — one slot per piece index, issued
exactly for the five missing indices 5-9, aligned by piece index. -/
def s4PutLimits : List (Option OrderLimit) :=
  [none, none, none, none, none,
   some ⟨5, 201⟩, some ⟨6, 202⟩, some ⟨7, 203⟩, some ⟨8, 204⟩, some ⟨9, 205⟩]

/-- Scenario S4: per-slot upload results — only the uploads at slots 5 and 6
succeed (two replacement pieces), the rest time out. -/
def s4Succ : List (Option Node) :=
  [none, none, none, none, none,
   some ⟨201, "addr"⟩, some ⟨202, "addr"⟩, none, none, none]

/-- Scenario S4: the complete repair environment. -/
def s4Env : RepairEnv :=
  { metainfoGet := fun p => if p = "proj/s0/bucket/obj" then some s4Pointer else none
    cache := ⟨s4DB, plainPrefs⟩
    getRepairOrders := .ok ()
    putRepairOrders := .ok s4PutLimits
    ecGet := .ok ()
    ecRepair := .ok (s4Succ, List.replicate 10 777)
    metainfoPutOk := true }

/-- Scenario S4: the pointer the engine writes back — the five old healthy
pieces plus the two successfully uploaded replacements, 7 pieces in all. -/
def s4Committed : Pointer :=
  ⟨.remote, 4096, 0, some ⟨s4Scheme,
    [⟨0, 101, 900⟩, ⟨1, 102, 901⟩, ⟨2, 103, 902⟩, ⟨3, 104, 903⟩, ⟨4, 105, 904⟩,
     ⟨5, 201, 777⟩, ⟨6, 202, 777⟩]⟩⟩

/-- C3 witness: in scenario S4 the healthy count 5 fails the gate
(5 > 6 is false), so the engine proceeds with the repair pipeline. -/
theorem C3_repair_gate_witness :
    Repair s4Env "proj/s0/bucket/obj"
        = repairAfterGate s4Env "proj/s0/bucket/obj" s4Pointer s4Pointer.getRemote
            (missingPiecesLoop [106, 107, 108, 109, 110] s4Pointer.getRemote.remotePieces) ∧
    (Repair s4Env "proj/s0/bucket/obj").outcome ≠ RepairOutcome.noRepairNeeded :=
  (C3_repair_gate s4Env "proj/s0/bucket/obj" s4Pointer [106, 107, 108, 109, 110]
    rfl rfl (by decide) rfl (by decide) (by decide) 5 (by decide)).2 (by decide)

/-- C1 counterexample: in scenario S4 of the spec (ten pieces, five on bad
nodes, success threshold 8, only two replacement uploads succeed) the
assembled piece list has 7 < 8 pieces, yet Repair commits and rewrites the
pointer instead of failing with INSUFFICIENT_REPAIR and leaving the store
unchanged. -/
theorem C1_counterexample :
    Repair s4Env "proj/s0/bucket/obj" = ⟨.committed, some s4Committed⟩ ∧
    ((s4Committed.getRemote.remotePieces.length : Int) < s4Scheme.successThreshold) :=
  ⟨by decide, by decide⟩

/-- When every step of one repair succeeds — pointer present and remote,
valid redundancy, gate passed, bucket id derived, orders issued, nodes found,
download and upload done, store write accepted — `Repair` commits the healthy
pieces followed by one piece per successful upload slot, with no further
check. -/
lemma repair_commits (env : RepairEnv) (path : String) (pointer : Pointer)
    (bad : List NodeID) (bucketID : String) (newNodes : List Node)
    (putLimits : List (Option OrderLimit)) (succ : List (Option Node))
    (hashes : List Nat)
    (hget : env.metainfoGet path = some pointer)
    (hremote : pointer.ptrType = PointerType.remote)
    (hvalid : validRedundancy pointer.getRemote.redundancy)
    (hbad : Cache.KnownUnreliableOrOffline env.cache
      (pointer.getRemote.remotePieces.map (fun p => p.nodeId)) = .ok bad)
    (hgate : ¬ ((pointer.getRemote.remotePieces.length : Int) -
          ((missingPiecesLoop bad pointer.getRemote.remotePieces).length : Int)
          ≥ pointer.getRemote.redundancy.minReq ∧
        (pointer.getRemote.remotePieces.length : Int) -
          ((missingPiecesLoop bad pointer.getRemote.remotePieces).length : Int)
          > pointer.getRemote.redundancy.repairThreshold))
    (hbucket : createBucketID path = some bucketID)
    (hgo : env.getRepairOrders = .ok ())
    (hfind : Cache.FindStorageNodes env.cache
      { minimumRequiredNodes := 0
        requestedCount := pointer.getRemote.redundancy.total -
          (((classifyPieces
              (sliceToSet (missingPiecesLoop bad pointer.getRemote.remotePieces))
              pointer.getRemote.remotePieces).2.length : Nat) : Int)
        freeBandwidth := CalcPieceSize pointer.segmentSize pointer.getRemote.redundancy
        freeDisk := CalcPieceSize pointer.segmentSize pointer.getRemote.redundancy
        excludedNodes := (classifyPieces
          (sliceToSet (missingPiecesLoop bad pointer.getRemote.remotePieces))
          pointer.getRemote.remotePieces).1
        minimumVersion := "" } = .ok newNodes)
    (hpo : env.putRepairOrders = .ok putLimits)
    (heg : env.ecGet = .ok ())
    (her : env.ecRepair = .ok (succ, hashes))
    (hput : env.metainfoPutOk = true) :
    Repair env path = ⟨.committed, some
      (Pointer.mk pointer.ptrType pointer.segmentSize pointer.expirationDate
        (some (RemoteSegment.mk pointer.getRemote.redundancy
          ((classifyPieces
              (sliceToSet (missingPiecesLoop bad pointer.getRemote.remotePieces))
              pointer.getRemote.remotePieces).2
            ++ assembleNewPieces hashes 0 succ))))⟩ := by
  have hum : updateMissingPieces env.cache pointer.getRemote.remotePieces
      = .ok (missingPiecesLoop bad pointer.getRemote.remotePieces) := by
    unfold updateMissingPieces
    dsimp only
    rw [hbad]
  unfold Repair
  rw [hget]
  dsimp only
  rw [if_neg (by simp [hremote])]
  rw [if_neg (not_not_intro hvalid)]
  rw [hum]
  dsimp only
  rw [if_neg hgate]
  unfold repairAfterGate
  dsimp only
  rw [hbucket]
  dsimp only
  rw [hgo]
  dsimp only
  rw [hfind]
  dsimp only
  rw [hpo]
  dsimp only
  rw [heg]
  dsimp only
  rw [her]
  dsimp only
  rw [hput]
  rw [if_pos rfl]

/-- C1 amended: there is no success-threshold gate in the code — whenever the
upload step completes (and the pointer write is accepted), Repair rewrites
the pointer to the healthy pieces plus the successfully uploaded replacement
pieces, whatever the size of that list; in particular a repair whose
assembled list is smaller than the success threshold still commits rather
than failing with INSUFFICIENT_REPAIR. -/
theorem C1_repair_always_commits (env : RepairEnv) (path : String)
    (pointer : Pointer) (bad : List NodeID) (bucketID : String)
    (newNodes : List Node) (putLimits : List (Option OrderLimit))
    (succ : List (Option Node)) (hashes : List Nat)
    (hget : env.metainfoGet path = some pointer)
    (hremote : pointer.ptrType = PointerType.remote)
    (hvalid : validRedundancy pointer.getRemote.redundancy)
    (hbad : Cache.KnownUnreliableOrOffline env.cache
      (pointer.getRemote.remotePieces.map (fun p => p.nodeId)) = .ok bad)
    (hgate : ¬ ((pointer.getRemote.remotePieces.length : Int) -
          ((missingPiecesLoop bad pointer.getRemote.remotePieces).length : Int)
          ≥ pointer.getRemote.redundancy.minReq ∧
        (pointer.getRemote.remotePieces.length : Int) -
          ((missingPiecesLoop bad pointer.getRemote.remotePieces).length : Int)
          > pointer.getRemote.redundancy.repairThreshold))
    (hbucket : createBucketID path = some bucketID)
    (hgo : env.getRepairOrders = .ok ())
    (hfind : Cache.FindStorageNodes env.cache
      { minimumRequiredNodes := 0
        requestedCount := pointer.getRemote.redundancy.total -
          (((classifyPieces
              (sliceToSet (missingPiecesLoop bad pointer.getRemote.remotePieces))
              pointer.getRemote.remotePieces).2.length : Nat) : Int)
        freeBandwidth := CalcPieceSize pointer.segmentSize pointer.getRemote.redundancy
        freeDisk := CalcPieceSize pointer.segmentSize pointer.getRemote.redundancy
        excludedNodes := (classifyPieces
          (sliceToSet (missingPiecesLoop bad pointer.getRemote.remotePieces))
          pointer.getRemote.remotePieces).1
        minimumVersion := "" } = .ok newNodes)
    (hpo : env.putRepairOrders = .ok putLimits)
    (heg : env.ecGet = .ok ())
    (her : env.ecRepair = .ok (succ, hashes))
    (hput : env.metainfoPutOk = true) :
    Repair env path = ⟨.committed, some
      (Pointer.mk pointer.ptrType pointer.segmentSize pointer.expirationDate
        (some (RemoteSegment.mk pointer.getRemote.redundancy
          ((classifyPieces
              (sliceToSet (missingPiecesLoop bad pointer.getRemote.remotePieces))
              pointer.getRemote.remotePieces).2
            ++ assembleNewPieces hashes 0 succ))))⟩ :=
  repair_commits env path pointer bad bucketID newNodes putLimits succ hashes
    hget hremote hvalid hbad hgate hbucket hgo hfind hpo heg her hput

/-- C1 amended witness: in scenario S4 the assembled list has 7 < 8 pieces
and Repair commits it all the same. -/
theorem C1_repair_always_commits_witness :
    Repair s4Env "proj/s0/bucket/obj" = ⟨.committed, some s4Committed⟩ :=
  (C1_repair_always_commits s4Env "proj/s0/bucket/obj" s4Pointer
      [106, 107, 108, 109, 110] "proj/bucket"
      [⟨201, "addr"⟩, ⟨202, "addr"⟩, ⟨203, "addr"⟩, ⟨204, "addr"⟩, ⟨205, "addr"⟩]
      s4PutLimits s4Succ (List.replicate 10 777)
      rfl rfl (by decide) rfl (by decide) rfl rfl rfl rfl rfl rfl rfl).trans
    (by decide)

/-- Modelled from the spec (§4.4): PUT_REPAIR order limits are aligned by
piece index — counting slots from `i0`, the limit found in a slot names that
slot's piece index. -/
def limitsAlignedFrom : Nat → List (Option OrderLimit) → Bool
  | _, [] => true
  | i, none :: rest => limitsAlignedFrom (i + 1) rest
  | i, some lim :: rest => (lim.pieceIndex == (i : Int)) && limitsAlignedFrom (i + 1) rest

/-- Modelled from the spec (§4.5): `ec.Repair` returns its per-slot results
aligned with the order-limit slots, and a slot can only succeed where an
order limit was issued. -/
def succOnIssued : List (Option Node) → List (Option OrderLimit) → Bool
  | [], _ => true
  | _ :: _, [] => false
  | none :: ss, _ :: ls => succOnIssued ss ls
  | some _ :: ss, l :: ls => l.isSome && succOnIssued ss ls

/-- Modelled from the spec (§4.4): a PUT_REPAIR order is issued exactly for
the piece indices that were missing — counting slots from `i0`, every slot
holding a limit is a missing piece index. -/
def issuedAreMissingFrom (missing : List Int) : Nat → List (Option OrderLimit) → Bool
  | _, [] => true
  | i, none :: rest => issuedAreMissingFrom missing (i + 1) rest
  | i, some _ :: rest =>
      missing.contains ((i : Nat) : Int) && issuedAreMissingFrom missing (i + 1) rest

/-- Alignment read off slot by slot: the limit found in slot `j` (counting
from `i0`) names piece index `i0 + j`. -/
lemma limitsAlignedFrom_getD (limits : List (Option OrderLimit)) :
    ∀ (i0 j : Nat), limitsAlignedFrom i0 limits = true →
      ∀ lim, limits.getD j none = some lim →
        lim.pieceIndex = ((i0 + j : Nat) : Int) := by
  induction limits with
  | nil =>
    intro i0 j _ lim h
    simp [List.getD] at h
  | cons l ls ih =>
    intro i0 j hal lim h
    cases l with
    | none =>
      cases j with
      | zero => simp [List.getD_cons_zero] at h
      | succ j2 =>
        rw [List.getD_cons_succ] at h
        have := ih (i0 + 1) j2 (by simpa [limitsAlignedFrom] using hal) lim h
        rw [this]
        push_cast
        ring
    | some lim0 =>
      have hal2 := hal
      rw [limitsAlignedFrom] at hal2
      rw [Bool.and_eq_true, beq_iff_eq] at hal2
      cases j with
      | zero =>
        rw [List.getD_cons_zero] at h
        injection h with h
        subst h
        simpa using hal2.1
      | succ j2 =>
        rw [List.getD_cons_succ] at h
        have := ih (i0 + 1) j2 hal2.2 lim h
        rw [this]
        push_cast
        ring

/-- Issued-slots-are-missing read off slot by slot: if slot `j` (counting
from `i0`) carries a limit then `i0 + j` is a missing piece index. -/
lemma issuedAreMissingFrom_getD (missing : List Int)
    (limits : List (Option OrderLimit)) :
    ∀ (i0 j : Nat), issuedAreMissingFrom missing i0 limits = true →
      ∀ lim, limits.getD j none = some lim → ((i0 + j : Nat) : Int) ∈ missing := by
  induction limits with
  | nil =>
    intro i0 j _ lim h
    simp [List.getD] at h
  | cons l ls ih =>
    intro i0 j him lim h
    cases l with
    | none =>
      cases j with
      | zero => simp [List.getD_cons_zero] at h
      | succ j2 =>
        rw [List.getD_cons_succ] at h
        have := ih (i0 + 1) j2 (by simpa [issuedAreMissingFrom] using him) lim h
        have harith : ((i0 + 1) + j2 : Nat) = (i0 + (j2 + 1) : Nat) := by omega
        rwa [harith] at this
    | some lim0 =>
      have him2 := him
      rw [issuedAreMissingFrom] at him2
      rw [Bool.and_eq_true] at him2
      cases j with
      | zero =>
        have := him2.1
        simpa using this
      | succ j2 =>
        rw [List.getD_cons_succ] at h
        have := ih (i0 + 1) j2 him2.2 lim h
        have harith : ((i0 + 1) + j2 : Nat) = (i0 + (j2 + 1) : Nat) := by omega
        rwa [harith] at this

/-- Every assembled replacement piece comes from a successful slot `j`
(counting from `i0`): the slot holds its node, the same slot holds an order
limit, the piece number is the slot index, and the node id is the slot
node's id. -/
lemma assemble_mem_spec (hashes : List Nat) :
    ∀ (i0 : Nat) (succ : List (Option Node)) (limits : List (Option OrderLimit)),
      succOnIssued succ limits = true →
      ∀ pc ∈ assembleNewPieces hashes i0 succ,
        ∃ j nd lim, succ.getD j none = some nd ∧ limits.getD j none = some lim ∧
          pc.pieceNum = ((i0 + j : Nat) : Int) ∧ pc.nodeId = nd.id := by
  intro i0 succ
  induction succ generalizing i0 with
  | nil =>
    intro limits _ pc hpc
    cases hpc
  | cons s ss ih =>
    intro limits hsi pc hpc
    cases s with
    | none =>
      cases limits with
      | nil => simp [succOnIssued] at hsi
      | cons l ls =>
        have hsi2 : succOnIssued ss ls = true := by simpa [succOnIssued] using hsi
        rw [assembleNewPieces] at hpc
        obtain ⟨j, nd, lim, h1, h2, h3, h4⟩ := ih (i0 + 1) ls hsi2 pc hpc
        refine ⟨j + 1, nd, lim, by simpa using h1, by simpa using h2, ?_, h4⟩
        rw [h3]
        push_cast
        ring
    | some nd0 =>
      cases limits with
      | nil => simp [succOnIssued] at hsi
      | cons l ls =>
        have hsi2 := hsi
        rw [succOnIssued, Bool.and_eq_true] at hsi2
        obtain ⟨lim0, hl⟩ := Option.isSome_iff_exists.mp hsi2.1
        rw [assembleNewPieces] at hpc
        rcases List.mem_cons.mp hpc with heq | hpc2
        · subst heq
          exact ⟨0, nd0, lim0, by simp, by simp [hl], by simp, rfl⟩
        · obtain ⟨j, nd, lim, h1, h2, h3, h4⟩ := ih (i0 + 1) ls hsi2.2 pc hpc2
          refine ⟨j + 1, nd, lim, by simpa using h1, by simpa using h2, ?_, h4⟩
          rw [h3]
          push_cast
          ring

/-- Assembled piece numbers lie in `[i0, i0 + number of slots)`. -/
lemma assemble_pieceNum_bounds (hashes : List Nat) :
    ∀ (i0 : Nat) (succ : List (Option Node)),
      ∀ pc ∈ assembleNewPieces hashes i0 succ,
        (i0 : Int) ≤ pc.pieceNum ∧ pc.pieceNum < (i0 : Int) + (succ.length : Int) := by
  intro i0 succ
  induction succ generalizing i0 with
  | nil =>
    intro pc hpc
    cases hpc
  | cons s ss ih =>
    intro pc hpc
    cases s with
    | none =>
      rw [assembleNewPieces] at hpc
      have := ih (i0 + 1) pc hpc
      constructor
      · have := this.1
        push_cast at this ⊢
        omega
      · have := this.2
        push_cast at this ⊢
        simp only [List.length_cons]
        push_cast
        omega
    | some nd0 =>
      rw [assembleNewPieces] at hpc
      rcases List.mem_cons.mp hpc with heq | hpc2
      · subst heq
        constructor
        · simp
        · simp only [List.length_cons]
          push_cast
          omega
      · have := ih (i0 + 1) pc hpc2
        constructor
        · have := this.1
          push_cast at this ⊢
          omega
        · have := this.2
          push_cast at this ⊢
          simp only [List.length_cons]
          push_cast
          omega

/-- Assembled pieces carry strictly increasing piece numbers. -/
lemma assemble_pairwise_lt (hashes : List Nat) :
    ∀ (i0 : Nat) (succ : List (Option Node)),
      (assembleNewPieces hashes i0 succ).Pairwise
        (fun a b => a.pieceNum < b.pieceNum) := by
  intro i0 succ
  induction succ generalizing i0 with
  | nil => exact List.Pairwise.nil
  | cons s ss ih =>
    cases s with
    | none =>
      rw [assembleNewPieces]
      exact ih (i0 + 1)
    | some nd0 =>
      rw [assembleNewPieces]
      refine List.Pairwise.cons ?_ (ih (i0 + 1))
      intro b hb
      have := (assemble_pieceNum_bounds hashes (i0 + 1) ss b hb).1
      dsimp only
      push_cast at this ⊢
      omega

/-- Assembled piece numbers are pairwise distinct. -/
lemma assemble_map_nodup (hashes : List Nat) (i0 : Nat)
    (succ : List (Option Node)) :
    ((assembleNewPieces hashes i0 succ).map (fun pc => pc.pieceNum)).Nodup :=
  (assemble_pairwise_lt hashes i0 succ).map _ (fun _ _ h => ne_of_lt h)

/-- C2: when a repair commits, every appended replacement piece carries the
piece index named by the PUT_REPAIR order limit at its upload slot, and the
committed pointer's piece indices are pairwise distinct and all lie in
`[0, n)`. -/
theorem C2_committed_piece_indices (env : RepairEnv) (path : String)
    (pointer : Pointer) (bad : List NodeID) (bucketID : String)
    (newNodes : List Node) (putLimits : List (Option OrderLimit))
    (succ : List (Option Node)) (hashes : List Nat)
    (hget : env.metainfoGet path = some pointer)
    (hremote : pointer.ptrType = PointerType.remote)
    (hvalid : validRedundancy pointer.getRemote.redundancy)
    (hbad : Cache.KnownUnreliableOrOffline env.cache
      (pointer.getRemote.remotePieces.map (fun p => p.nodeId)) = .ok bad)
    (hgate : ¬ ((pointer.getRemote.remotePieces.length : Int) -
          ((missingPiecesLoop bad pointer.getRemote.remotePieces).length : Int)
          ≥ pointer.getRemote.redundancy.minReq ∧
        (pointer.getRemote.remotePieces.length : Int) -
          ((missingPiecesLoop bad pointer.getRemote.remotePieces).length : Int)
          > pointer.getRemote.redundancy.repairThreshold))
    (hbucket : createBucketID path = some bucketID)
    (hgo : env.getRepairOrders = .ok ())
    (hfind : Cache.FindStorageNodes env.cache
      { minimumRequiredNodes := 0
        requestedCount := pointer.getRemote.redundancy.total -
          (((classifyPieces
              (sliceToSet (missingPiecesLoop bad pointer.getRemote.remotePieces))
              pointer.getRemote.remotePieces).2.length : Nat) : Int)
        freeBandwidth := CalcPieceSize pointer.segmentSize pointer.getRemote.redundancy
        freeDisk := CalcPieceSize pointer.segmentSize pointer.getRemote.redundancy
        excludedNodes := (classifyPieces
          (sliceToSet (missingPiecesLoop bad pointer.getRemote.remotePieces))
          pointer.getRemote.remotePieces).1
        minimumVersion := "" } = .ok newNodes)
    (hpo : env.putRepairOrders = .ok putLimits)
    (heg : env.ecGet = .ok ())
    (her : env.ecRepair = .ok (succ, hashes))
    (hput : env.metainfoPutOk = true)
    (hpn : (pointer.getRemote.remotePieces.map (fun p => p.pieceNum)).Nodup)
    (hrange : ∀ p ∈ pointer.getRemote.remotePieces,
      0 ≤ p.pieceNum ∧ p.pieceNum < pointer.getRemote.redundancy.total)
    (halign : limitsAlignedFrom 0 putLimits = true)
    (hsi : succOnIssued succ putLimits = true)
    (him : issuedAreMissingFrom (missingPiecesLoop bad pointer.getRemote.remotePieces)
      0 putLimits = true)
    (hsl : succ.length = putLimits.length)
    (hpl : (putLimits.length : Int) = pointer.getRemote.redundancy.total) :
    Repair env path = ⟨.committed, some
      (Pointer.mk pointer.ptrType pointer.segmentSize pointer.expirationDate
        (some (RemoteSegment.mk pointer.getRemote.redundancy
          ((classifyPieces
              (sliceToSet (missingPiecesLoop bad pointer.getRemote.remotePieces))
              pointer.getRemote.remotePieces).2
            ++ assembleNewPieces hashes 0 succ))))⟩ ∧
    (∀ pc ∈ assembleNewPieces hashes 0 succ,
      ∃ lim, putLimits.getD pc.pieceNum.toNat none = some lim ∧
        pc.pieceNum = lim.pieceIndex) ∧
    ((((classifyPieces
          (sliceToSet (missingPiecesLoop bad pointer.getRemote.remotePieces))
          pointer.getRemote.remotePieces).2
        ++ assembleNewPieces hashes 0 succ).map (fun pc => pc.pieceNum)).Nodup) ∧
    (∀ pc ∈ (classifyPieces
          (sliceToSet (missingPiecesLoop bad pointer.getRemote.remotePieces))
          pointer.getRemote.remotePieces).2
        ++ assembleNewPieces hashes 0 succ,
      0 ≤ pc.pieceNum ∧ pc.pieceNum < pointer.getRemote.redundancy.total) := by
  refine ⟨repair_commits env path pointer bad bucketID newNodes putLimits succ hashes
    hget hremote hvalid hbad hgate hbucket hgo hfind hpo heg her hput, ?_, ?_, ?_⟩
  · intro pc hpc
    obtain ⟨j, nd, lim, h1, h2, h3, h4⟩ :=
      assemble_mem_spec hashes 0 succ putLimits hsi pc hpc
    refine ⟨lim, ?_, ?_⟩
    · rw [h3]
      simpa using h2
    · rw [h3, limitsAlignedFrom_getD putLimits 0 j halign lim h2]
  · rw [List.map_append]
    apply List.Nodup.append
    · have hsub : ((classifyPieces
          (sliceToSet (missingPiecesLoop bad pointer.getRemote.remotePieces))
          pointer.getRemote.remotePieces).2.map (fun pc => pc.pieceNum)).Sublist
          (pointer.getRemote.remotePieces.map (fun pc => pc.pieceNum)) := by
        rw [classifyPieces_eq]
        exact (List.filter_sublist pointer.getRemote.remotePieces).map _
      exact hpn.sublist hsub
    · exact assemble_map_nodup hashes 0 succ
    · intro a ha1 ha2
      rcases List.mem_map.mp ha1 with ⟨p, hp, rfl⟩
      rcases List.mem_map.mp ha2 with ⟨pc, hpc, hpe⟩
      rw [classifyPieces_eq] at hp
      have hnotmiss : p.pieceNum ∉
          missingPiecesLoop bad pointer.getRemote.remotePieces := by
        have := List.of_mem_filter hp
        simpa [sliceToSet, List.mem_dedup] using this
      obtain ⟨j, nd, lim, h1, h2, h3, h4⟩ :=
        assemble_mem_spec hashes 0 succ putLimits hsi pc hpc
      have hmiss := issuedAreMissingFrom_getD
        (missingPiecesLoop bad pointer.getRemote.remotePieces) putLimits 0 j him lim h2
      rw [← h3, hpe] at hmiss
      exact hnotmiss hmiss
  · intro pc hpc
    rcases List.mem_append.mp hpc with hh | hn2
    · rw [classifyPieces_eq] at hh
      exact hrange pc (List.mem_of_mem_filter hh)
    · have hb := assemble_pieceNum_bounds hashes 0 succ pc hn2
      have hlen : (succ.length : Int) = pointer.getRemote.redundancy.total := by
        rw [hsl]
        exact hpl
      constructor
      · have := hb.1
        simpa using this
      · have := hb.2
        omega

/-- C2 witness: in scenario S4 the two replacement pieces carry piece indices
5 and 6 named by the order limits at slots 5 and 6, and the committed 7-piece
pointer has distinct piece indices inside `[0, 10)`. -/
theorem C2_committed_piece_indices_witness :
    Repair s4Env "proj/s0/bucket/obj" = ⟨.committed, some s4Committed⟩ ∧
    (∀ pc ∈ assembleNewPieces (List.replicate 10 777) 0 s4Succ,
      ∃ lim, s4PutLimits.getD pc.pieceNum.toNat none = some lim ∧
        pc.pieceNum = lim.pieceIndex) ∧
    ((s4Committed.getRemote.remotePieces.map (fun pc => pc.pieceNum)).Nodup) ∧
    (∀ pc ∈ s4Committed.getRemote.remotePieces,
      0 ≤ pc.pieceNum ∧ pc.pieceNum < s4Scheme.total) := by
  have h := C2_committed_piece_indices s4Env "proj/s0/bucket/obj" s4Pointer
    [106, 107, 108, 109, 110] "proj/bucket"
    [⟨201, "addr"⟩, ⟨202, "addr"⟩, ⟨203, "addr"⟩, ⟨204, "addr"⟩, ⟨205, "addr"⟩]
    s4PutLimits s4Succ (List.replicate 10 777)
    rfl rfl (by decide) rfl (by decide) rfl rfl rfl rfl rfl rfl rfl
    (by decide) (by decide) (by decide) (by decide) (by decide) (by decide) (by decide)
  refine ⟨h.1.trans (by decide), h.2.1, ?_, ?_⟩
  · have h31 := h.2.2.1
    convert h31 using 2
  · intro pc hpc
    refine h.2.2.2 pc ?_
    revert hpc
    have hs : s4Committed.getRemote.remotePieces =
        (classifyPieces
          (sliceToSet (missingPiecesLoop [106, 107, 108, 109, 110]
            s4Pointer.getRemote.remotePieces))
          s4Pointer.getRemote.remotePieces).2
          ++ assembleNewPieces (List.replicate 10 777) 0 s4Succ := by decide
    rw [hs]
    exact fun h => h

/-- C4 amended witness: the two-node run from the counterexample environment
returns 2 ≥ target = 2 nodes. -/
theorem C4_find_nodes_amended_witness :
    Cache.FindStorageNodesWithPreferences ⟨fivePoolDB, plainPrefs⟩
        ⟨2, 5, 0, 0, [], ""⟩ plainPrefs = .ok [⟨301, "addr"⟩, ⟨302, "addr"⟩] ∧
    (2 : Int) ≤ (([⟨301, "addr"⟩, ⟨302, "addr"⟩] : List Node).length : Int) :=
  ⟨rfl,
   (C4_find_nodes_amended ⟨fivePoolDB, plainPrefs⟩ ⟨2, 5, 0, 0, [], ""⟩ plainPrefs 2
      (by decide) (fun n c => ⟨[], rfl⟩) (fun n c => ⟨_, rfl⟩)).1
     [⟨301, "addr"⟩, ⟨302, "addr"⟩] rfl⟩

end Storj
